import Mathlib

/- Verification of the datagolf API client (pygolf.py).

The client builds request URLs from a base URL, an optional path
segment and an endpoint name, issues a GET, raises on non-200
responses, flattens the JSON envelope into a flat table, and applies
regex-based parsers to name / location columns.  Python strings are
embedded as Lean `String`, tables column-wise as association lists,
exceptions as `Except`, and in-place mutation as explicit state
passing. -/

namespace PyGolf

/-- Characters stripped by Python `str.strip()` (ASCII whitespace). -/
def isPyWhitespace (c : Char) : Bool :=
  c = ' ' || c = '\t' || c = '\n' || c = '\x0d' || c = '\x0b' || c = '\x0c'

/-- Remove leading and trailing characters satisfying `p` from a character list. -/
def stripList (p : Char → Bool) (cs : List Char) : List Char :=
  ((cs.dropWhile p).reverse.dropWhile p).reverse

/-- Python `s.strip()`. -/
def pyStrip (s : String) : String :=
  String.mk (stripList isPyWhitespace s.data)

/-- Python `s.strip(t)` for a single strip character `t`. -/
def pyStripChar (t : Char) (s : String) : String :=
  String.mk (stripList (fun c => c = t) s.data)

/-- Python `s.split(sep)` for a one-character separator, on character lists. -/
def splitOnChar (sep : Char) : List Char → List (List Char)
  | [] => [[]]
  | c :: cs =>
    if c = sep then [] :: splitOnChar sep cs
    else
      match splitOnChar sep cs with
      | [] => [[c]]
      | p :: ps => (c :: p) :: ps

/-- Python `s.split(sep)` for a one-character separator, on strings. -/
def pySplit (sep : Char) (s : String) : List String :=
  (splitOnChar sep s.data).map String.mk

/- Request builder (`__connect_api`, pygolf.py lines 37-44):
`prefix = '' if prefix is None else prefix.strip('/') + '/'` and
`url = self.base_url + prefix + endpoint_name`. -/

/-- Normalized path segment inserted between the base URL and the endpoint name. -/
def normalizedPfx : Option String → String
  | none => ""
  | some p => pyStripChar '/' p ++ "/"

/-- Full request URL built by `__connect_api`. -/
def connectUrl (base_url : String) (pfx : Option String) (endpoint_name : String) : String :=
  base_url ++ normalizedPfx pfx ++ endpoint_name

/-- Query parameters actually serialized by `requests.get(url, params)`:
parameters whose value is `None` are omitted. -/
def sentParams (params : List (String × Option String)) : List (String × String) :=
  params.filterMap (fun kv => kv.2.map (fun v => (kv.1, v)))

/- Transport result check (`__connect_api`, pygolf.py lines 46-56). -/

/-- HTTP response as seen by `__connect_api`: a status code and a raw body. -/
structure HttpResponse where
  status_code : Int
  body : String
deriving DecidableEq, Repr

/-- Error message template of `__connect_api` (line 48), with the two
format slots filled in. -/
def apiBaseMsg (endpoint_name : String) (code : String) : String :=
  "Issue occurred with the request for " ++ endpoint_name ++ ". Status code " ++
    code ++ " encountered."

/-- Status check of `__connect_api`: raise `DataGolfAPIResponseError` when the
response is absent or its status code is not 200, otherwise hand the response
on (the caller then keeps the raw response or converts its JSON body). -/
def connectApiResult (endpoint_name : String) (r : Option HttpResponse) :
    Except String HttpResponse :=
  match r with
  | none => .error (apiBaseMsg endpoint_name "None")
  | some resp =>
    if resp.status_code ≠ 200 then
      .error (apiBaseMsg endpoint_name (toString resp.status_code))
    else
      .ok resp

/- Tables.  A pandas DataFrame is embedded column-wise: an ordered list of
(column name, cell list) pairs.  JSON scalars and nested record objects are
the cell values; a missing value (NaN) is `Value.null`. -/

/-- Cell value of a table: JSON scalar, missing value, or a nested record
object (a dict cell, as produced by `pd.DataFrame` on an envelope whose
nested field holds a list of objects). -/
inductive Value where
  | str : String → Value
  | int : Int → Value
  | null : Value
  | obj : List (String × Value) → Value

/-- Table: ordered columns, each a name with its list of cells. -/
abbrev DataFrame : Type := List (String × List Value)

/-- Whether a table has a column of the given name. -/
def hasCol (df : DataFrame) (name : String) : Bool :=
  match df with
  | [] => false
  | c :: cs => if c.1 = name then true else hasCol cs name

/-- Cells of the first column of the given name (empty list when absent). -/
def getColCells (df : DataFrame) (name : String) : List Value :=
  match df with
  | [] => []
  | c :: cs => if c.1 = name then c.2 else getColCells cs name

/-- Pandas `df.drop(name, axis=1)`: remove the column of that name. -/
def dropCol (name : String) (df : DataFrame) : DataFrame :=
  df.filter (fun c => c.1 ≠ name)

/-- Pandas `pd.concat([df1, df2], axis=1)` for frames sharing the same
default range index: the columns of both, side by side. -/
def concatCols (df1 df2 : DataFrame) : DataFrame := df1 ++ df2

/- JSON envelope: scalar top-level fields plus one field holding a list of
records.  (The nested field's position among the envelope keys does not
matter downstream because that column is dropped before concatenation.) -/

/-- One JSON record: field names with values. -/
abbrev JsonRecord : Type := List (String × Value)

/-- Field value of a record, `Value.null` when the key is absent. -/
def recField (r : JsonRecord) (k : String) : Value :=
  match r with
  | [] => .null
  | p :: ps => if p.1 = k then p.2 else recField ps k

/-- Keys of a record, in order. -/
def recKeys (r : JsonRecord) : List String := r.map Prod.fst

/-- Accumulate keys in order of first appearance. -/
def addKeys (acc : List String) : List String → List String
  | [] => acc
  | k :: ks => if k ∈ acc then addKeys acc ks else addKeys (acc ++ [k]) ks

/-- Column names of `pd.json_normalize` on a list of records: keys in order
of first appearance. -/
def unionKeys (recs : List JsonRecord) : List String :=
  recs.foldl (fun acc r => addKeys acc (recKeys r)) []

/-- Pandas `pd.json_normalize(recs)`: one column per key, one row per
record, missing fields filled with `null`. -/
def jsonNormalize (recs : List JsonRecord) : DataFrame :=
  (unionKeys recs).map (fun k => (k, recs.map (fun r => recField r k)))

/-- Record held by a dict cell (dict cells are the only ones normalized here). -/
def cellRec : Value → JsonRecord
  | .obj r => r
  | _ => []

/-- Pandas `pd.json_normalize(df[name])` applied to a column of dict cells. -/
def jsonNormalizeCells (cells : List Value) : DataFrame :=
  jsonNormalize (cells.map cellRec)

/-- Table built by `pd.DataFrame(r.json())` (line 56) from an envelope of
scalar fields plus one field `nestedName` holding a list of records: the
scalars broadcast down the length of the record list, the nested field a
column of dict cells. -/
def dfFromEnvelope (scalars : List (String × Value)) (nestedName : String)
    (recs : List JsonRecord) : DataFrame :=
  scalars.map (fun p => (p.1, List.replicate recs.length p.2)) ++
    [(nestedName, recs.map Value.obj)]

/-- Normalization step shared by the endpoint methods (lines 173-175 and
the analogous blocks): `pd.json_normalize(df[nested])`, `df.drop(nested,
axis=1)`, then `pd.concat([basic, nested], axis=1)`. -/
def normalizeEnvelope (scalars : List (String × Value)) (nestedName : String)
    (recs : List JsonRecord) : DataFrame :=
  let df := dfFromEnvelope scalars nestedName recs
  let course_deets := jsonNormalizeCells (getColCells df nestedName)
  let basic_deets := dropCol nestedName df
  concatCols basic_deets course_deets

/- Location parser of `get_tour_schedules` (pygolf.py lines 177-190): four
independent regex extractions over the `location` string, a strip, and two
cleanup assignments. -/

/-- Word character of the regex metacharacter `\b` (ASCII fragment of `\w`). -/
def isWordChar (c : Char) : Bool := c.isAlphanum || c = '_'

/-- ASCII upper-case letter, the character class `[A-Z]`. -/
def isUpperAZ (c : Char) : Bool := 'A' ≤ c && c ≤ 'Z'

/-- First match of `\b([A-Z]{2})\b` in `re.search` order; `prevWord` says
whether the character just before the current position is a word character. -/
def usStateAux (prevWord : Bool) : List Char → Option (List Char)
  | a :: b :: rest =>
    if !prevWord && isUpperAZ a && isUpperAZ b &&
        (match rest with | [] => true | c :: _ => !isWordChar c) then
      some [a, b]
    else
      usStateAux (isWordChar a) (b :: rest)
  | _ => none

/-- Capture of `^([^,]*)` (line 179): the text before the first comma. -/
def extractCity (s : String) : String :=
  String.mk (s.data.takeWhile (fun c => c ≠ ','))

/-- Capture of `\b([A-Z]{2})\b` (line 180): the first standalone pair of
upper-case letters, when present. -/
def extractUsState (s : String) : Option String :=
  (usStateAux false s.data).map String.mk

/-- Capture of `^[^,]*,([^,]*),` (line 181): the text between the first and
second commas, defined only when the string has at least two commas. -/
def extractOtherState (s : String) : Option String :=
  match pySplit ',' s with
  | _ :: b :: _ :: _ => some b
  | _ => none

/-- Capture of `([^,]*)$` (line 182): the text after the last comma (the
whole string when it has no comma). -/
def extractCountry (s : String) : String :=
  (pySplit ',' s).getLastD ""

/-- Parsed location fields produced by `get_tour_schedules`. -/
structure LocationParts where
  city : String
  state : Option String
  country : String
deriving DecidableEq, Repr

/-- Location parsing pipeline (lines 177-190): extract the four captures,
strip each, force `country` to `"United States"` when the stripped
`us_state` equals the stripped `country` capture (`np.where`, line 189),
and let `state` be `us_state` filled back with `other_state` (`fillna`,
line 190).  A capture that did not match is `NaN`, which `str.strip` keeps
and which compares unequal to everything in `np.where`. -/
def parseLocation (s : String) : LocationParts :=
  let city := pyStrip (extractCity s)
  let us_state := (extractUsState s).map pyStrip
  let other_state := (extractOtherState s).map pyStrip
  let countryCap := pyStrip (extractCountry s)
  { city := city
    state := match us_state with | some v => some v | none => other_state
    country := if us_state = some countryCap then "United States" else countryCap }

/- Name parser `_parse_name` (pygolf.py lines 58-94). -/

/-- Character class `[A-Za-z.]` of the optional suffix group. -/
def isNameSuffixChar (c : Char) : Bool :=
  ('A' ≤ c && c ≤ 'Z') || ('a' ≤ c && c ≤ 'z') || c = '.'

/-- Full match of `^([^,]+),\s+([A-Za-z.]*,)?([^,]*)$` (line 83): the three
capture groups of the name pattern, `none` when the regex does not match.
Greediness is resolved: `([^,]+)` must stop at the first comma, `\s+` takes
the maximal whitespace run, and the optional group can only match the
maximal `[A-Za-z.]` run followed by a comma; when the remainder after that
comma still holds a comma, neither alternative of the optional group lets
`([^,]*)$` reach the end, so the whole match fails. -/
def nameGroups (s : String) : Option (String × Option String × String) :=
  let cs := s.data
  let g1 := cs.takeWhile (fun c => c ≠ ',')
  match g1, cs.drop g1.length with
  | [], _ => none
  | _ :: _, [] => none
  | _ :: _, _ :: rest1 =>
    let ws := rest1.takeWhile isPyWhitespace
    if ws.isEmpty then none
    else
      let rest2 := rest1.drop ws.length
      let run := rest2.takeWhile isNameSuffixChar
      match rest2.drop run.length with
      | ',' :: tail =>
        if tail.any (fun c => c = ',') then none
        else some (String.mk g1, some (String.mk (run ++ [','])), String.mk tail)
      | _ =>
        if rest2.any (fun c => c = ',') then none
        else some (String.mk g1, none, String.mk rest2)

/-- Python `s.replace(',', '')`: drop every comma. -/
def removeCommas (s : String) : String :=
  String.mk (s.data.filter (fun c => c ≠ ','))

/-- Cleanup applied to each extracted group (line 88):
`fillna('').str.strip().str.replace(',','')`. -/
def cleanNamePart (g : Option String) : String :=
  removeCommas (pyStrip (g.getD ""))

/-- Scalar composition of the name parser: the regex extraction followed by
the per-column cleanup, on one name string. -/
def parseNameStr (s : String) : String × String × String :=
  match nameGroups s with
  | none => ("", "", "")
  | some (l, suf, f) => (cleanNamePart (some l), cleanNamePart suf, cleanNamePart f)

/- DataFrame-level `_parse_name`, with the in-place mutation made explicit. -/

/-- Pandas column assignment `df[name] = cells`: replace the column in place
when it exists, append it otherwise. -/
def setCol (df : DataFrame) (name : String) (cells : List Value) : DataFrame :=
  if hasCol df name then df.map (fun c => if c.1 = name then (name, cells) else c)
  else df ++ [(name, cells)]

/-- First capture group of the name regex as a cell (`str.extract` yields
`NaN` on a non-string cell or a failed match). -/
def extractG1 : Value → Value
  | .str s => match nameGroups s with | some (l, _, _) => .str l | none => .null
  | _ => .null

/-- Second (optional) capture group of the name regex as a cell. -/
def extractG2 : Value → Value
  | .str s => match nameGroups s with | some (_, some m, _) => .str m | _ => .null
  | _ => .null

/-- Third capture group of the name regex as a cell. -/
def extractG3 : Value → Value
  | .str s => match nameGroups s with | some (_, _, f) => .str f | none => .null
  | _ => .null

/-- Per-cell cleanup of line 88 (the extracted cells are strings or `NaN`;
`fillna('')` turns `NaN` into the empty string before strip and replace). -/
def cleanCell : Value → Value
  | .str s => .str (removeCommas (pyStrip s))
  | _ => .str ""

/-- In-place cleanup `players[col] = players[col].fillna('')...` on one column. -/
def cleanColAt (df : DataFrame) (name : String) : DataFrame :=
  setCol df name ((getColCells df name).map cleanCell)

/-- The `_parse_name` call (lines 80-94) with the mutation made explicit.
The first component is the caller's DataFrame object after the call: the
item assignments of lines 84 and 88 act on the passed-in object.  The
second component is `_parse_name`'s return value: `players.drop(column,
axis=1)` (line 92) returns a copy and rebinds only the local name, so the
drop is visible in the return value alone. -/
def parseNameFrame (players : DataFrame) (column : String) (drop_column : Bool) :
    DataFrame × DataFrame :=
  let cells := getColCells players column
  let p1 := setCol players "last_name" (cells.map extractG1)
  let p2 := setCol p1 "suffix" (cells.map extractG2)
  let p3 := setCol p2 "first_name" (cells.map extractG3)
  let p4 := cleanColAt (cleanColAt (cleanColAt p3 "last_name") "suffix") "first_name"
  (p4, if drop_column then dropCol column p4 else p4)

/- The notes step of `get_fantasy` (pygolf.py lines 633-634). -/

/-- Python `bool` as the `int` it subtypes. -/
def pyIntOfBool (b : Bool) : Int := if b then 1 else 0

/-- Python bitwise complement `~x` on an int (two's complement). -/
def pyBitNot (i : Int) : Int := -i - 1

/-- Python truthiness of an int: nonzero. -/
def pyTruthyInt (i : Int) : Bool := if i = 0 then false else true

/-- Lines 633-634 of `get_fantasy`: `if ~include_notes: df = df.drop('note',
axis=1)`.  The `~` is Python's bitwise complement on the bool, not logical
negation. -/
def fantasyNotesStep (df : DataFrame) (include_notes : Bool) : DataFrame :=
  if pyTruthyInt (pyBitNot (pyIntOfBool include_notes)) then dropCol "note" df else df

/- Parameter assembly of `get_pre_tourney_predictions` (pygolf.py lines
321-352). -/

/-- Request handed to `__connect_api`: endpoint name, path segment, query
parameters. -/
structure RequestDescriptor where
  endpoint_name : String
  pfx : Option String
  params : List (String × Option String)
deriving DecidableEq, Repr

/-- Python truthiness of the optional int arguments (`if (event_id or
year)` at line 340): `None` and `0` are falsy. -/
def pyTruthyOptNat : Option Nat → Bool
  | none => false
  | some n => if n = 0 then false else true

/-- Message of the `DataGolfAPIInputError` raised at line 332 (spelling as
in the source). -/
def addPositionErrorMsg : String :=
  "add_position into get_pre_tourney_predictions is temporariily unavailable"

/-- `get_pre_tourney_predictions` up to the HTTP call (lines 321-352): the
request descriptor handed to `__connect_api`, or the `DataGolfAPIInputError`
raised before any request when `add_position` is not `None`. -/
def preTourneyRequest (api_key : String) (add_position : Option (List String))
    (tour odds_format : String) (event_id year : Option Nat) :
    Except String RequestDescriptor :=
  match add_position with
  | some _ => .error addPositionErrorMsg
  | none =>
    let base := [("key", some api_key), ("file_format", some "csv"),
                 ("odds_format", some odds_format)]
    let endpoint_name :=
      if pyTruthyOptNat event_id || pyTruthyOptNat year then "pre-tournament-archive"
      else "pre-tournament"
    let params :=
      if endpoint_name = "pre-tournament" then base ++ [("tour", some tour)]
      else
        base ++ (if pyTruthyOptNat event_id then
                  [("event_id", some (toString (event_id.getD 0)))] else []) ++
               (if pyTruthyOptNat year then
                  [("year", some (toString (year.getD 0)))] else [])
    .ok { endpoint_name := endpoint_name, pfx := some "preds", params := params }

/-- `get_pre_tourney_predictions` up to and including the transport check.
`http` is the oracle mapping the issued request to its optional response;
when the input error fires, the oracle is never consulted. -/
def preTourneyCall (api_key : String) (add_position : Option (List String))
    (tour odds_format : String) (event_id year : Option Nat)
    (http : RequestDescriptor → Option HttpResponse) : Except String HttpResponse :=
  match preTourneyRequest api_key add_position tour odds_format event_id year with
  | .error e => .error e
  | .ok d => connectApiResult d.endpoint_name (http d)

/- CSV-to-table step of `get_pre_tourney_predictions` (lines 354-356). -/

/-- Line 355: `[row.split(',') for row in content.decode('utf-8').split('\n')]`. -/
def csvCells (body : String) : List (List String) :=
  (pySplit '\n' body).map (fun row => pySplit ',' row)

/-- Width pandas infers for list-of-lists data: the length of the longest
row (`lib.to_object_array` pads every row to it). -/
def dataWidth (rows : List (List String)) : Nat :=
  rows.foldl (fun w r => max w r.length) 0

/-- Pandas row ingestion: cells become values, short rows are padded with
`NaN` up to the data width. -/
def padRow (w : Nat) (r : List String) : List Value :=
  r.map Value.str ++ List.replicate (w - r.length) Value.null

/-- Pandas `pd.DataFrame(data, columns=cols)` on a list of row lists: with
no rows, an empty table with the given columns; otherwise the rows are
padded with `NaN` to the width of the widest row, and when that width
differs from the column count the constructor raises
`ValueError: {n} columns passed, passed data had {m} columns`. -/
def dfFromRows (cols : List String) (rows : List (List String)) :
    Except String (List String × List (List Value)) :=
  if rows = [] then .ok (cols, [])
  else
    let w := dataWidth rows
    if cols.length = w then .ok (cols, rows.map (padRow w))
    else .error (toString cols.length ++ " columns passed, passed data had " ++
      toString w ++ " columns")

/-- Line 356: `pd.DataFrame(csv_list[1:], columns=csv_list[0])` - the first
line's fields name the columns, the later lines are the data rows, and the
constructor's width-vs-columns validation applies. -/
def csvTable (body : String) : Except String (List String × List (List Value)) :=
  dfFromRows ((csvCells body).headD []) ((csvCells body).drop 1)

/- Helper lemmas. -/

/-- Stripping both ends is right-stripping the left-stripped list. -/
theorem stripList_eq_rdropWhile (p : Char → Bool) (l : List Char) :
    stripList p l = List.rdropWhile p (l.dropWhile p) := rfl

/-- Character data of an appended string. -/
theorem data_append (s t : String) : (s ++ t).data = s.data ++ t.data := rfl

/-- The strip of `prefix.strip('/')` leaves no trailing slash run. -/
theorem rtakeWhile_slash_pyStripChar (p : String) :
    (pyStripChar '/' p).data.rtakeWhile (fun c => c = '/') = [] := by
  rw [List.rtakeWhile_eq_nil_iff]
  intro hl
  have := List.rdropWhile_last_not (p := fun c => c = '/')
    (l := p.data.dropWhile (fun c => c = '/')) hl
  simpa using this

/- C7: request builder URL and query parameters. -/

/-- Claim C7: for every endpoint name, parameter mapping and optional path
segment, the GET goes to `base_url + prefix + endpoint_name`, where a `None`
segment contributes the empty string and a non-`None` one is normalized by
stripping slashes and appending exactly one trailing slash, and the query
string holds exactly the parameters whose values are not `None`. -/
theorem c7_request_builder_url_and_params :
    (∀ base ep, connectUrl base none ep = base ++ ep) ∧
    (∀ base ep p, connectUrl base (some p) ep = base ++ (pyStripChar '/' p ++ "/") ++ ep) ∧
    (∀ p, (normalizedPfx (some p)).data.rtakeWhile (fun c => c = '/') = [ '/' ]) ∧
    (∀ params k v, (k, v) ∈ sentParams params ↔ (k, some v) ∈ params) := by
  refine ⟨fun base ep => ?_, fun base ep p => rfl, fun p => ?_, fun params k v => ?_⟩
  · simp [connectUrl, normalizedPfx]
  · show ((pyStripChar '/' p ++ "/").data).rtakeWhile (fun c => c = '/') = [ '/' ]
    rw [data_append]
    show ((pyStripChar '/' p).data ++ [ '/' ]).rtakeWhile (fun c => c = '/') = [ '/' ]
    rw [List.rtakeWhile_concat_pos _ _ _ (by decide), rtakeWhile_slash_pyStripChar,
      List.nil_append]
  · simp only [sentParams, List.mem_filterMap]
    constructor
    · rintro ⟨⟨k0, v0⟩, hmem, hmap⟩
      cases v0 with
      | none => simp at hmap
      | some w =>
        obtain ⟨rfl, rfl⟩ : k0 = k ∧ w = v := by simpa using hmap
        exact hmem
    · intro h
      exact ⟨(k, some v), h, rfl⟩

/-- Witness for C7 at concrete inputs. -/
theorem c7_witness :
    connectUrl "https://feeds.datagolf.com/" (some "preds") "get-dg-rankings" =
      "https://feeds.datagolf.com/" ++ (pyStripChar '/' "preds" ++ "/") ++ "get-dg-rankings" ∧
    (("key", "k") ∈ sentParams [("key", some "k"), ("site", none)] ↔
      ("key", some "k") ∈ [("key", some "k"), ("site", (none : Option String))]) :=
  ⟨c7_request_builder_url_and_params.2.1 "https://feeds.datagolf.com/" "get-dg-rankings" "preds",
   c7_request_builder_url_and_params.2.2.2 [("key", some "k"), ("site", none)] "key" "k"⟩

/- C3: non-200 or absent responses raise, carrying endpoint and status. -/

/-- Claim C3: when the HTTP response is absent or has a status code other
than 200, `__connect_api` raises `DataGolfAPIResponseError` whose message
carries the endpoint name and the status code (or `None` for no response),
and no table is handed back; the message template is spelled out in the
last conjunct. -/
theorem c3_api_error_on_bad_response :
    (∀ e, connectApiResult e none = .error (apiBaseMsg e "None")) ∧
    (∀ e resp, resp.status_code ≠ 200 →
      connectApiResult e (some resp) = .error (apiBaseMsg e (toString resp.status_code))) ∧
    (∀ e c, apiBaseMsg e c =
      "Issue occurred with the request for " ++ e ++ ". Status code " ++ c ++ " encountered.") := by
  refine ⟨fun e => rfl, fun e resp h => ?_, fun e c => rfl⟩
  simp only [connectApiResult]
  rw [if_pos h]

/-- Witness for C3: a 404 on `get-schedule` raises with both pieces in the
message. -/
theorem c3_witness :
    connectApiResult "get-schedule" (some ⟨404, ""⟩) =
      .error (apiBaseMsg "get-schedule" (toString (404 : Int))) :=
  c3_api_error_on_bad_response.2.1 "get-schedule" ⟨404, ""⟩ (by decide)

/- C8: add_position is rejected before any request. -/

/-- Claim C8: a non-`None` `add_position` makes `get_pre_tourney_predictions`
raise `DataGolfAPIInputError` before any HTTP request is issued - the result
is the input error whatever the HTTP oracle would answer - while a `None`
`add_position` builds a request descriptor without this error. -/
theorem c8_add_position_rejected :
    (∀ key ap tour ofmt eid yr http,
      preTourneyCall key (some ap) tour ofmt eid yr http = .error addPositionErrorMsg) ∧
    (∀ key tour ofmt eid yr, ∃ d,
      preTourneyRequest key none tour ofmt eid yr = .ok d) :=
  ⟨fun _ _ _ _ _ _ _ => rfl, fun _ _ _ _ _ => ⟨_, rfl⟩⟩

/- C1: the note column of get_fantasy. -/

/-- Fantasy-projection table fixture holding a `note` column. -/
def fantasyExample : DataFrame :=
  [("event_name", [Value.str "Masters"]), ("note", [Value.str "api note"]),
   ("salary", [Value.int 9000])]

/-- Claim C1 (code bug): `if ~include_notes:` uses Python's bitwise
complement, and `~True = -2` and `~False = -1` are both truthy, so the
`note` column is dropped for BOTH values of `include_notes`; the method's
own docstring says the column is kept when `include_notes=True`.  The first
conjunct shows the drop is unconditional, the rest evaluate the failing
input `include_notes=True`. -/
theorem c1_note_dropped_for_both_flag_values :
    (∀ df b, fantasyNotesStep df b = dropCol "note" df) ∧
    hasCol fantasyExample "note" = true ∧
    hasCol (fantasyNotesStep fantasyExample true) "note" = false ∧
    hasCol (fantasyNotesStep fantasyExample false) "note" = false :=
  ⟨fun df b => by cases b <;> rfl, rfl, rfl, rfl⟩

/- C5: the location parser. -/

/-- Claim C5: after trimming the four captures, `state` is the `us_state`
capture when a standalone two-upper-case-letter token matched and the
`other_state` capture otherwise, and `country` is forced to
`"United States"` when the trimmed `us_state` equals the trimmed `country`
capture (text after the last comma) and is the `country` capture otherwise;
in particular both `"Augusta, GA, United States"` and `"Augusta, GA"` parse
to city `Augusta`, state `GA`, country `United States`. -/
theorem c5_location_parsing :
    (∀ s, (parseLocation s).state =
      (match (extractUsState s).map pyStrip with
       | some v => some v
       | none => (extractOtherState s).map pyStrip)) ∧
    (∀ s, (parseLocation s).country =
      (if (extractUsState s).map pyStrip = some (pyStrip (extractCountry s))
       then "United States" else pyStrip (extractCountry s))) ∧
    parseLocation "Augusta, GA, United States" =
      ⟨"Augusta", some "GA", "United States"⟩ ∧
    parseLocation "Augusta, GA" = ⟨"Augusta", some "GA", "United States"⟩ :=
  ⟨fun _ => rfl, fun _ => rfl, by decide, by decide⟩

/- C6: the name parser. -/

/-- Claim C6: the single regex of `_parse_name` yields the three groups
with unmatched groups defaulting to the empty string after trimming
whitespace and commas; in particular `"Woods, Tiger"` parses to
(`Woods`, empty suffix, `Tiger`) and `"Nicklaus, Jr., Jack"` to
(`Nicklaus`, `Jr.`, `Jack`). -/
theorem c6_name_parsing :
    parseNameStr "Woods, Tiger" = ("Woods", "", "Tiger") ∧
    parseNameStr "Nicklaus, Jr., Jack" = ("Nicklaus", "Jr.", "Jack") ∧
    (∀ s, parseNameStr s =
      (match nameGroups s with
       | none => (cleanNamePart none, cleanNamePart none, cleanNamePart none)
       | some (l, suf, f) => (cleanNamePart (some l), cleanNamePart suf, cleanNamePart f))) :=
  ⟨by decide, by decide, fun s => by
    unfold parseNameStr
    cases nameGroups s with
    | none => rfl
    | some g => rfl⟩

/- C10: the CSV-to-table step. -/

/-- Splitting never yields an empty part list. -/
theorem splitOnChar_ne_nil (sep : Char) (cs : List Char) : splitOnChar sep cs ≠ [] := by
  cases cs with
  | nil => simp [splitOnChar]
  | cons c cs =>
    simp only [splitOnChar]
    split
    · simp
    · cases h : splitOnChar sep cs with
      | nil => simp
      | cons p ps => simp

/-- Appending a separator appends one empty part. -/
theorem splitOnChar_append_sep (sep : Char) (cs : List Char) :
    splitOnChar sep (cs ++ [sep]) = splitOnChar sep cs ++ [[]] := by
  induction cs with
  | nil => simp [splitOnChar]
  | cons c cs ih =>
    show splitOnChar sep (c :: (cs ++ [sep])) = _
    simp only [splitOnChar]
    by_cases hc : c = sep
    · rw [if_pos hc, ih]
      simp [hc]
    · rw [if_neg hc, ih]
      cases h : splitOnChar sep cs with
      | nil => exact absurd h (splitOnChar_ne_nil sep cs)
      | cons p ps => simp [hc, h]

/-- Python `split` on strings never yields an empty part list. -/
theorem pySplit_ne_nil (sep : Char) (s : String) : pySplit sep s ≠ [] := by
  unfold pySplit
  intro h
  exact splitOnChar_ne_nil sep s.data (List.map_eq_nil_iff.mp h)

/-- Claim C10 counterexample: on the body `event,player\nMasters,"Woods,
Tiger"\n` the naive comma split makes the quoted data row three cells wide
against the two-field header, so line 356's DataFrame construction raises
`ValueError` and returns no table, against the claim's "every later line
becomes one row" of the output. -/
theorem c10_counterexample :
    pySplit ',' "Masters,\"Woods, Tiger\"" = ["Masters", "\"Woods", " Tiger\""] ∧
    csvTable "event,player\nMasters,\"Woods, Tiger\"\n" =
      .error "2 columns passed, passed data had 3 columns" :=
  ⟨rfl, rfl⟩

/-- Claim C10 (amended): the CSV step decodes the body and splits it on
newlines and then commas with no quote handling; the first line's fields
name the columns and each later line yields one row only when the widest
data row has exactly as many cells as the header - shorter rows, such as
the final row built from the empty string when the body ends in a newline,
are padded with missing values - and otherwise the DataFrame construction
raises `ValueError` naming both widths. -/
theorem c10_csv_split_and_width_check :
    (∀ body, csvTable body =
      dfFromRows (pySplit ',' ((pySplit '\n' body).headD ""))
        (((pySplit '\n' body).drop 1).map (fun r => pySplit ',' r))) ∧
    (∀ cols rows, rows ≠ [] → cols.length = dataWidth rows →
      dfFromRows cols rows = .ok (cols, rows.map (padRow (dataWidth rows)))) ∧
    (∀ cols rows, rows ≠ [] → cols.length ≠ dataWidth rows →
      dfFromRows cols rows = .error (toString cols.length ++
        " columns passed, passed data had " ++ toString (dataWidth rows) ++ " columns")) ∧
    (∀ body,
      (((pySplit '\n' (body ++ "\n")).drop 1).map (fun r => pySplit ',' r)).getLast? =
        some [""]) ∧
    csvTable "event_name,player_name\nMasters,Woods\nUS Open,\n" =
      .ok (["event_name", "player_name"],
        [[Value.str "Masters", Value.str "Woods"], [Value.str "US Open", Value.str ""],
         [Value.str "", Value.null]]) := by
  refine ⟨fun body => ?_, fun cols rows hne hw => ?_, fun cols rows hne hw => ?_,
    fun body => ?_, rfl⟩
  · unfold csvTable csvCells
    cases h : pySplit '\n' body with
    | nil => exact absurd h (pySplit_ne_nil '\n' body)
    | cons l ls => simp
  · simp only [dfFromRows]
    rw [if_neg hne, if_pos hw]
  · simp only [dfFromRows]
    rw [if_neg hne, if_neg hw]
  · have hsplit : pySplit '\n' (body ++ "\n") = pySplit '\n' body ++ [""] := by
      unfold pySplit
      rw [data_append]
      show ((splitOnChar '\n' (body.data ++ [ '\n' ])).map String.mk) = _
      rw [splitOnChar_append_sep]
      simp
    rw [hsplit]
    cases h : pySplit '\n' body with
    | nil => exact absurd h (pySplit_ne_nil '\n' body)
    | cons l ls => simp [pySplit, splitOnChar]

/-- Witness for the amended C10: a data set matching the header width is
ingested with the short row padded, a wider one raises the `ValueError`. -/
theorem c10_witness :
    dfFromRows ["a", "b"] [["1"], ["2", "3"]] =
      .ok (["a", "b"], [[Value.str "1", Value.null], [Value.str "2", Value.str "3"]]) ∧
    dfFromRows ["a", "b"] [["1", "2", "3"]] =
      .error "2 columns passed, passed data had 3 columns" :=
  ⟨c10_csv_split_and_width_check.2.1 ["a", "b"] [["1"], ["2", "3"]] (by simp) (by decide),
   c10_csv_split_and_width_check.2.2.1 ["a", "b"] [["1", "2", "3"]] (by simp) (by decide)⟩

/- Helper lemmas on tables. -/

/-- Column presence is membership among the column names. -/
theorem hasCol_eq_true_iff (df : DataFrame) (n : String) :
    hasCol df n = true ↔ n ∈ df.map Prod.fst := by
  induction df with
  | nil => simp [hasCol]
  | cons c cs ih =>
    simp only [hasCol, List.map_cons, List.mem_cons]
    by_cases h : c.1 = n
    · simp [h]
    · simp [h, ih]
      exact fun e => absurd e.symm h

/-- Column absence is non-membership among the column names. -/
theorem hasCol_eq_false_iff (df : DataFrame) (n : String) :
    hasCol df n = false ↔ n ∉ df.map Prod.fst := by
  rw [← hasCol_eq_true_iff]
  cases hasCol df n <;> simp

/-- Names of a column-wise broadcast are the scalar field names. -/
theorem names_broadcast (scalars : List (String × Value)) (f : String × Value → List Value) :
    (scalars.map (fun p => (p.1, f p))).map Prod.fst = scalars.map Prod.fst := by
  rw [List.map_map]
  rfl

/-- Reading the appended column when no earlier column bears its name. -/
theorem getColCells_append_single (xs : DataFrame) (n : String) (v : List Value)
    (h : n ∉ xs.map Prod.fst) : getColCells (xs ++ [(n, v)]) n = v := by
  induction xs with
  | nil => simp [getColCells]
  | cons c cs ih =>
    simp only [List.map_cons, List.mem_cons, not_or] at h
    simp only [List.cons_append, getColCells]
    rw [if_neg (fun hh => h.1 hh.symm)]
    exact ih h.2

/-- Dropping the appended column when no earlier column bears its name. -/
theorem dropCol_append_single (xs : DataFrame) (n : String) (v : List Value)
    (h : n ∉ xs.map Prod.fst) : dropCol n (xs ++ [(n, v)]) = xs := by
  have hcn : ∀ c ∈ xs, c.1 ≠ n := fun c hc e => h (e ▸ List.mem_map_of_mem Prod.fst hc)
  unfold dropCol
  rw [List.filter_append]
  have h1 : xs.filter (fun c => c.1 ≠ n) = xs :=
    List.filter_eq_self.mpr (fun c hc => by simpa using hcn c hc)
  have h2 : List.filter (fun c => c.1 ≠ n) [(n, v)] = [] := by simp
  rw [h1, h2, List.append_nil]

/- C2: the empty nested list. -/

/-- Claim C2: when the envelope's nested list is empty, the normalization
step (DataFrame construction, flattening, drop, concatenation) returns a
zero-row table whose columns are exactly the envelope's scalar columns;
every function involved is total, so no error is raised. -/
theorem c2_empty_nested_list (scalars : List (String × Value)) (nestedName : String)
    (h : nestedName ∉ scalars.map Prod.fst) :
    normalizeEnvelope scalars nestedName [] =
      scalars.map (fun p => (p.1, ([] : List Value))) := by
  have hnames : nestedName ∉
      (scalars.map (fun p => (p.1, List.replicate (List.length ([] : List JsonRecord)) p.2))).map
        Prod.fst := by
    rw [names_broadcast]
    exact h
  simp only [normalizeEnvelope, dfFromEnvelope, concatCols]
  rw [getColCells_append_single _ _ _ hnames, dropCol_append_single _ _ _ hnames,
    show jsonNormalizeCells (List.map Value.obj ([] : List JsonRecord)) = [] from rfl,
    List.append_nil]
  rfl

/-- Witness for C2: the envelope `{"a": 1, "records": []}` normalizes to the
zero-row table with the single column `a`. -/
theorem c2_witness :
    normalizeEnvelope [("a", Value.int 1)] "records" [] = [("a", ([] : List Value))] :=
  c2_empty_nested_list [("a", Value.int 1)] "records" (by simp)

/- C4: the one-to-many denormalization of a non-empty nested list. -/

/-- Adding keys already present changes nothing. -/
theorem addKeys_of_forall_mem (ks : List String) :
    ∀ acc, (∀ k ∈ ks, k ∈ acc) → addKeys acc ks = acc := by
  induction ks with
  | nil => intro acc _; rfl
  | cons k ks ih =>
    intro acc h
    simp only [addKeys]
    rw [if_pos (h k (List.mem_cons_self k ks))]
    exact ih acc (fun x hx => h x (List.mem_cons_of_mem _ hx))

/-- Adding fresh, duplicate-free keys appends them in order. -/
theorem addKeys_of_nodup_disjoint (ks : List String) :
    ∀ acc, ks.Nodup → (∀ k ∈ ks, k ∉ acc) → addKeys acc ks = acc ++ ks := by
  induction ks with
  | nil => intro acc _ _; simp [addKeys]
  | cons k ks ih =>
    intro acc hnd hdis
    simp only [addKeys]
    rw [if_neg (hdis k (List.mem_cons_self k ks))]
    rw [ih (acc ++ [k]) (List.nodup_cons.mp hnd).2 ?_]
    · simp
    · intro x hx
      simp only [List.mem_append, List.mem_singleton, not_or]
      exact ⟨hdis x (List.mem_cons_of_mem _ hx),
        fun e => (List.nodup_cons.mp hnd).1 (e ▸ hx)⟩

/-- Folding records whose keys are all `ks` over the accumulator `ks` is
stationary. -/
theorem foldl_addKeys_const (ks : List String) :
    ∀ rest : List JsonRecord, (∀ r ∈ rest, recKeys r = ks) →
      List.foldl (fun acc r => addKeys acc (recKeys r)) ks rest = ks := by
  intro rest
  induction rest with
  | nil => intro _; rfl
  | cons r rest ih =>
    intro h
    simp only [List.foldl_cons]
    rw [h r (List.mem_cons_self r rest), addKeys_of_forall_mem ks ks (fun k hk => hk)]
    exact ih (fun x hx => h x (List.mem_cons_of_mem _ hx))

/-- Key union of uniform records is the shared key list. -/
theorem unionKeys_const (ks : List String) (recs : List JsonRecord) (hne : recs ≠ [])
    (hk : ∀ r ∈ recs, recKeys r = ks) (hnd : ks.Nodup) : unionKeys recs = ks := by
  cases recs with
  | nil => exact absurd rfl hne
  | cons r rest =>
    unfold unionKeys
    simp only [List.foldl_cons]
    rw [hk r (List.mem_cons_self r rest),
      addKeys_of_nodup_disjoint ks [] hnd (by simp), List.nil_append]
    exact foldl_addKeys_const ks rest (fun x hx => hk x (List.mem_cons_of_mem _ hx))

/-- Unwrapping the dict-cell column recovers the records. -/
theorem map_cellRec_obj (recs : List JsonRecord) :
    (recs.map Value.obj).map cellRec = recs := by
  rw [List.map_map]
  simp [Function.comp_def, cellRec]

/-- Claim C4: for a non-empty nested list of records over a duplicate-free
shared key list `ks`, the normalizer returns the scalar columns broadcast
to one cell per record, side by side with one column per record key whose
cells are each record's own field values; hence exactly `recs.length` rows,
the envelope scalars repeated identically, and each row carrying its
record's fields. -/
theorem c4_envelope_denormalization (scalars : List (String × Value)) (nestedName : String)
    (recs : List JsonRecord) (ks : List String)
    (hne : recs ≠ []) (hn : nestedName ∉ scalars.map Prod.fst)
    (hk : ∀ r ∈ recs, recKeys r = ks) (hnd : ks.Nodup) :
    normalizeEnvelope scalars nestedName recs =
      scalars.map (fun p => (p.1, List.replicate recs.length p.2)) ++
        ks.map (fun k => (k, recs.map (fun r => recField r k))) ∧
    ∀ col ∈ normalizeEnvelope scalars nestedName recs, col.2.length = recs.length := by
  have hnames : nestedName ∉
      (scalars.map (fun p => (p.1, List.replicate recs.length p.2))).map Prod.fst := by
    rw [names_broadcast]
    exact hn
  have hmain : normalizeEnvelope scalars nestedName recs =
      scalars.map (fun p => (p.1, List.replicate recs.length p.2)) ++
        ks.map (fun k => (k, recs.map (fun r => recField r k))) := by
    simp only [normalizeEnvelope, dfFromEnvelope, concatCols]
    rw [getColCells_append_single _ _ _ hnames, dropCol_append_single _ _ _ hnames]
    congr 1
    unfold jsonNormalizeCells
    rw [map_cellRec_obj]
    unfold jsonNormalize
    rw [unionKeys_const ks recs hne hk hnd]
  refine ⟨hmain, ?_⟩
  intro col hcol
  rw [hmain] at hcol
  rcases List.mem_append.mp hcol with hL | hR
  · obtain ⟨p, hp, rfl⟩ := List.mem_map.mp hL
    simp
  · obtain ⟨k, hkk, rfl⟩ := List.mem_map.mp hR
    simp

/-- Witness for C4: the spec's example envelope
`{"a": 1, "records": [{"x": 1}, {"x": 2}]}` yields two rows, each with
`a = 1` and its own `x`. -/
theorem c4_witness :
    normalizeEnvelope [("a", Value.int 1)] "records"
        [[("x", Value.int 1)], [("x", Value.int 2)]] =
      [("a", [Value.int 1, Value.int 1]), ("x", [Value.int 1, Value.int 2])] :=
  (c4_envelope_denormalization [("a", Value.int 1)] "records"
    [[("x", Value.int 1)], [("x", Value.int 2)]] ["x"]
    (by simp) (by simp)
    (by
      intro r hr
      simp only [List.mem_cons, List.not_mem_nil, or_false] at hr
      rcases hr with rfl | rfl <;> rfl)
    (by simp)).1

/- C9: in-place mutation of the caller's table by `_parse_name`. -/

/-- Column assignment replaces a name in place: an in-place replacement
keeps the name list, an append adds the assigned name at the end. -/
theorem mem_names_setCol (df : DataFrame) (n : String) (cells : List Value) (m : String) :
    m ∈ (setCol df n cells).map Prod.fst ↔ m ∈ df.map Prod.fst ∨ m = n := by
  unfold setCol
  by_cases h : hasCol df n
  · rw [if_pos h, List.map_map]
    have hmap : df.map (Prod.fst ∘ fun c => if c.1 = n then (n, cells) else c) =
        df.map Prod.fst := by
      apply List.map_congr_left
      intro c _
      by_cases hc : c.1 = n <;> simp [Function.comp_def, hc]
    rw [hmap]
    constructor
    · exact Or.inl
    · rintro (hm | rfl)
      · exact hm
      · exact (hasCol_eq_true_iff df m).mp h
  · rw [if_neg h]
    simp

/-- The dropped column's name is gone from `df.drop(name, axis=1)`. -/
theorem hasCol_dropCol_self (df : DataFrame) (n : String) :
    hasCol (dropCol n df) n = false := by
  rw [hasCol_eq_false_iff]
  intro hmem
  obtain ⟨c, hc, hfst⟩ := List.mem_map.mp hmem
  have := List.of_mem_filter hc
  simp only [decide_eq_true_eq] at this
  exact this hfst

/-- Claim C9: `_parse_name` mutates the caller's table in place - the three
parsed columns are present on the caller's object after the call and the
parsed source column survives there - while with `drop_column=True` the
source column is removed only from the returned table, which is exactly the
caller's object minus that column. -/
theorem c9_parse_name_mutates_caller (players : DataFrame) (column : String) :
    (parseNameFrame players column true).2 =
      dropCol column (parseNameFrame players column true).1 ∧
    hasCol (parseNameFrame players column true).2 column = false ∧
    hasCol (parseNameFrame players column true).1 "last_name" = true ∧
    hasCol (parseNameFrame players column true).1 "suffix" = true ∧
    hasCol (parseNameFrame players column true).1 "first_name" = true ∧
    (hasCol players column = true →
      hasCol (parseNameFrame players column true).1 column = true) := by
  have hstep : ∀ (df : DataFrame) (n : String) (cells : List Value) (m : String),
      m ∈ df.map Prod.fst → m ∈ (setCol df n cells).map Prod.fst :=
    fun df n cells m hm => (mem_names_setCol df n cells m).mpr (Or.inl hm)
  have hself : ∀ (df : DataFrame) (n : String) (cells : List Value),
      n ∈ (setCol df n cells).map Prod.fst :=
    fun df n cells => (mem_names_setCol df n cells n).mpr (Or.inr rfl)
  refine ⟨rfl, hasCol_dropCol_self _ column, ?_, ?_, ?_, ?_⟩
  all_goals
    simp only [parseNameFrame, cleanColAt, hasCol_eq_true_iff]
  · exact hstep _ _ _ _ (hstep _ _ _ _ (hstep _ _ _ _ (hstep _ _ _ _ (hstep _ _ _ _
      (hself players "last_name" _)))))
  · exact hstep _ _ _ _ (hstep _ _ _ _ (hstep _ _ _ _ (hstep _ _ _ _
      (hself _ "suffix" _))))
  · exact hstep _ _ _ _ (hstep _ _ _ _ (hstep _ _ _ _
      (hself _ "first_name" _)))
  · intro h
    exact hstep _ _ _ _ (hstep _ _ _ _ (hstep _ _ _ _ (hstep _ _ _ _ (hstep _ _ _ _
      (hstep _ _ _ _ h)))))

/-- Witness for C9: on a one-row roster keyed by `player_name`, the caller's
object keeps `player_name` after the call while the returned table lost it. -/
theorem c9_witness :
    hasCol [("player_name", [Value.str "Woods, Tiger"])] "player_name" = true ∧
    hasCol (parseNameFrame [("player_name", [Value.str "Woods, Tiger"])]
      "player_name" true).1 "player_name" = true ∧
    hasCol (parseNameFrame [("player_name", [Value.str "Woods, Tiger"])]
      "player_name" true).2 "player_name" = false :=
  ⟨rfl,
   (c9_parse_name_mutates_caller [("player_name", [Value.str "Woods, Tiger"])]
     "player_name").2.2.2.2.2 rfl,
   (c9_parse_name_mutates_caller [("player_name", [Value.str "Woods, Tiger"])]
     "player_name").2.1⟩

end PyGolf
